import Mathlib

/-!
Verification of the environment-configuration pipeline of
nestjs-lib-starter (the nestjs-environment library): a decorator-driven
preprocessor that converts selected raw environment strings into arrays
or JSON-parsed structures, followed by schema validation and a typed
lookup service.

The repository ships the library documentation and test configuration;
the implementation bodies of the preprocessor, validator adapter,
lookup service and module bootstrap are modelled here from the
specification, as flagged on each definition.
-/

/-- A structured value produced by parsing serialized text, mirroring the
host runtime JSON data model (with integral numbers, the only kind the
specification exercises). -/
inductive Json where
  | null
  | bool (b : Bool)
  | num (n : Int)
  | str (s : String)
  | arr (elems : List Json)
  | obj (members : List (String × Json))
deriving Repr

/-- Whitespace recognised between JSON tokens. -/
def jsonWs (c : Char) : Bool :=
  c == ' ' || c == '\n' || c == '\t' || c == '\r'

/-- Drop leading JSON whitespace. -/
def skipWs : List Char → List Char
  | [] => []
  | c :: cs => if jsonWs c then skipWs cs else c :: cs

/-- Read the characters of a JSON string literal body up to the closing
quote, handling the basic escape sequences. -/
def parseStringBody : List Char → Option (String × List Char)
  | [] => none
  | c :: cs =>
    if c == '"' then some ("", cs)
    else if c == '\\' then
      match cs with
      | [] => none
      | e :: cs₂ =>
        let esc : Option Char :=
          if e == '"' then some '"'
          else if e == '\\' then some '\\'
          else if e == '/' then some '/'
          else if e == 'n' then some '\n'
          else if e == 't' then some '\t'
          else if e == 'r' then some '\r'
          else none
        match esc with
        | none => none
        | some d =>
          match parseStringBody cs₂ with
          | none => none
          | some (rest, cs₃) => some (⟨d :: rest.data⟩, cs₃)
    else
      match parseStringBody cs with
      | none => none
      | some (rest, cs₂) => some (⟨c :: rest.data⟩, cs₂)

/-- Read a run of decimal digits, returning their value and count. -/
def parseDigits : List Char → Nat → Nat → (Nat × Nat × List Char)
  | [], acc, count => (acc, count, [])
  | c :: cs, acc, count =>
    if c.isDigit then parseDigits cs (acc * 10 + (c.toNat - 48)) (count + 1)
    else (acc, count, c :: cs)

mutual

/-- Parse one JSON value from the character stream, fuelled to bound
recursion depth. -/
def parseVal : Nat → List Char → Option (Json × List Char)
  | 0, _ => none
  | fuel + 1, cs =>
    match skipWs cs with
    | [] => none
    | c :: cs₁ =>
      if c == 'n' then
        match cs₁ with
        | 'u' :: 'l' :: 'l' :: cs₂ => some (.null, cs₂)
        | _ => none
      else if c == 't' then
        match cs₁ with
        | 'r' :: 'u' :: 'e' :: cs₂ => some (.bool true, cs₂)
        | _ => none
      else if c == 'f' then
        match cs₁ with
        | 'a' :: 'l' :: 's' :: 'e' :: cs₂ => some (.bool false, cs₂)
        | _ => none
      else if c == '"' then
        match parseStringBody cs₁ with
        | none => none
        | some (s, cs₂) => some (.str s, cs₂)
      else if c == '[' then
        match skipWs cs₁ with
        | ']' :: cs₂ => some (.arr [], cs₂)
        | cs₂ =>
          match parseElems fuel cs₂ with
          | none => none
          | some (xs, cs₃) => some (.arr xs, cs₃)
      else if c == '\x7b' then
        match skipWs cs₁ with
        | '\x7d' :: cs₂ => some (.obj [], cs₂)
        | cs₂ =>
          match parseMembers fuel cs₂ with
          | none => none
          | some (ms, cs₃) => some (.obj ms, cs₃)
      else if c == '-' then
        match parseDigits cs₁ 0 0 with
        | (_, 0, _) => none
        | (n, _ + 1, cs₂) => some (.num (-(n : Int)), cs₂)
      else if c.isDigit then
        match parseDigits (c :: cs₁) 0 0 with
        | (_, 0, _) => none
        | (n, _ + 1, cs₂) => some (.num (n : Int), cs₂)
      else none

/-- Parse the comma-separated elements of a non-empty JSON array, up to
and including the closing bracket. -/
def parseElems : Nat → List Char → Option (List Json × List Char)
  | 0, _ => none
  | fuel + 1, cs =>
    match parseVal fuel cs with
    | none => none
    | some (j, cs₁) =>
      match skipWs cs₁ with
      | ',' :: cs₂ =>
        match parseElems fuel cs₂ with
        | none => none
        | some (xs, cs₃) => some (j :: xs, cs₃)
      | ']' :: cs₂ => some ([j], cs₂)
      | _ => none

/-- Parse the comma-separated members of a non-empty JSON object, up to
and including the closing brace. -/
def parseMembers : Nat → List Char → Option (List (String × Json) × List Char)
  | 0, _ => none
  | fuel + 1, cs =>
    match skipWs cs with
    | '"' :: cs₁ =>
      match parseStringBody cs₁ with
      | none => none
      | some (k, cs₂) =>
        match skipWs cs₂ with
        | ':' :: cs₃ =>
          match parseVal fuel cs₃ with
          | none => none
          | some (j, cs₄) =>
            match skipWs cs₄ with
            | ',' :: cs₅ =>
              match parseMembers fuel cs₅ with
              | none => none
              | some (ms, cs₆) => some ((k, j) :: ms, cs₆)
            | '\x7d' :: cs₅ => some ([(k, j)], cs₅)
            | _ => none
        | _ => none
    | _ => none

end

/-- Parse a whole string as one JSON document, modelling the host
runtime's synchronous parse of a serialized structured value: the result
must consume the input up to trailing whitespace. -/
def Json.parse (s : String) : Option Json :=
  match parseVal (s.length + 1) s.data with
  | none => none
  | some (j, rest) =>
    match skipWs rest with
    | [] => some j
    | _ => none

/-- If sep is a prefix of cs, return the remainder of cs after it. -/
def dropSepPrefix : List Char → List Char → Option (List Char)
  | [], cs => some cs
  | _, [] => none
  | s :: ss, c :: cs => if c == s then dropSepPrefix ss cs else none

/-- Split a character stream on every occurrence of a non-empty
separator, fuelled to bound recursion depth; chunks are kept in order
and no character is trimmed. -/
def splitChunks (sep : List Char) : Nat → List Char → List (List Char)
  | 0, cs => [cs]
  | fuel + 1, cs =>
    match cs with
    | [] => [[]]
    | c :: cs₁ =>
      match if sep.isEmpty then none else dropSepPrefix sep cs with
      | some rest => [] :: splitChunks sep fuel rest
      | none =>
        match splitChunks sep fuel cs₁ with
        | [] => [[c]]
        | h :: t => (c :: h) :: t

/-- Split a string on every occurrence of the separator, modelling the
host runtime's string split: the empty string yields one empty chunk,
and no whitespace is trimmed beyond the split. The behaviour on an
empty separator is left as the whole string in one chunk, a case the
specification leaves unspecified. -/
def splitString (v sep : String) : List String :=
  (splitChunks sep.data (v.length + 1) v.data).map (fun cs => ⟨cs⟩)

/-- Modelled from the spec: the options of a Transform Annotation
attached to one field by the ParseEnvironment decorator (whose
implementation is not in the repository sources): absence of toClass
selects splitting on a separator, default comma; toClass selects the
JSON parse of the raw string. -/
structure TransformOptions where
  toClass : Bool := false
  separator : String := ","
deriving Repr, DecidableEq

/-- Identity of a Shape Declaration class, used to key the process-wide
Field Transform Registry. -/
abbrev ShapeId := String

/-- Modelled from the spec: one entry of the Field Transform Registry,
recorded at class-definition time for a field of a shape. -/
structure RegEntry where
  shape : ShapeId
  fieldName : String
  options : TransformOptions
deriving Repr, DecidableEq

/-- Modelled from the spec: the process-wide Field Transform Registry,
accumulating entries for the process lifetime. -/
abbrev Registry := List RegEntry

/-- Modelled from the spec: lookup of the registry entries recorded for
one target shape, as a mapping from field name to options. -/
def transformsFor (reg : Registry) (shape : ShapeId) :
    List (String × TransformOptions) :=
  (reg.filter (fun e => e.shape == shape)).map (fun e => (e.fieldName, e.options))

/-- A value of the intermediate mapping produced by the preprocessor:
an untouched raw string, a separator-split array of substrings, or a
JSON-parsed structured value. -/
inductive Value where
  | str (s : String)
  | strList (xs : List String)
  | json (j : Json)
deriving Repr

/-- The error raised when a field marked toClass holds a string that is
not well-formed JSON: the field name and the offending raw value. -/
structure MalformedTransformInput where
  fieldName : String
  raw : String
deriving Repr, DecidableEq

/-- Modelled from the spec: the preprocessing of one raw binding. A
field with no registered Transform Annotation passes through unchanged;
a registered field without toClass splits on the separator; a
registered field with toClass undergoes exactly one JSON parse, whose
failure propagates as a parse error. -/
def transformField (entries : List (String × TransformOptions))
    (k v : String) : Except MalformedTransformInput Value :=
  match entries.lookup k with
  | none => .ok (.str v)
  | some opts =>
    if opts.toClass then
      match Json.parse v with
      | some j => .ok (.json j)
      | none => .error ⟨k, v⟩
    else
      .ok (.strList (splitString v opts.separator))

/-- Modelled from the spec: rewrite every binding of the raw environment
with transformField for the given registry entries, propagating the
first parse error. -/
def preprocessList (es : List (String × TransformOptions)) :
    List (String × String) →
    Except MalformedTransformInput (List (String × Value))
  | [] => .ok []
  | (k, v) :: t =>
    match transformField es k v with
    | .error e => .error e
    | .ok w =>
      match preprocessList es t with
      | .error e => .error e
      | .ok out => .ok ((k, w) :: out)

/-- Modelled from the spec: the Environment Preprocessor. Given the raw
environment and the target shape, it consults the Field Transform
Registry for that shape and rewrites each present binding with
transformField; fields whose raw value is absent are passed through
unset (no key is invented for them). -/
def preprocess (reg : Registry) (shape : ShapeId)
    (raw : List (String × String)) :
    Except MalformedTransformInput (List (String × Value)) :=
  preprocessList (transformsFor reg shape) raw

/-- Modelled from the spec: the candidate instances of the nested shape
obtained from a parsed toClass value: each element of a parsed array is
one candidate; a scalar or object is a single candidate. -/
def candidates : Json → List Json
  | .arr xs => xs
  | j => [j]

/-- The failure signal of the external validator, carrying the original
message. -/
structure ValidationFailure where
  message : String
deriving Repr, DecidableEq

/-- Modelled from the spec: one field of an externally authored Joi
object schema: a name, a synchronous check-and-coerce operation, and an
optional default supplied when the field is absent; a field that is
absent with no default raises a failure for the whole shape. -/
structure FieldSchema where
  name : String
  coerce : Value → Except String Value
  defaultVal : Option Value := none

/-- Modelled from the spec: an externally authored Joi object schema,
the unique supported validation source: a list of field schemas with a
synchronous validate operation. -/
structure JoiObjectSchema where
  fields : List FieldSchema

/-- Modelled from the spec: validation of one declared field against the
preprocessed mapping: coerce a present value, default an absent one, or
fail. -/
def validateField (pre : List (String × Value)) (f : FieldSchema) :
    Except ValidationFailure (String × Value) :=
  match pre.lookup f.name with
  | some v =>
    match f.coerce v with
    | .ok w => .ok (f.name, w)
    | .error m => .error ⟨m⟩
  | none =>
    match f.defaultVal with
    | some d => .ok (f.name, d)
    | none => .error ⟨f.name ++ " is required"⟩

/-- Modelled from the spec: validate every declared field in order,
propagating the first failure. -/
def validateFields (pre : List (String × Value)) :
    List FieldSchema → Except ValidationFailure (List (String × Value))
  | [] => .ok []
  | f :: fs =>
    match validateField pre f with
    | .error e => .error e
    | .ok kv =>
      match validateFields pre fs with
      | .error e => .error e
      | .ok out => .ok (kv :: out)

/-- Modelled from the spec: the synchronous validate operation of a Joi
object schema: a pure, one-shot check of every declared field, producing
a fully defaulted validated mapping or the first failure. -/
def JoiObjectSchema.validate (s : JoiObjectSchema)
    (pre : List (String × Value)) :
    Except ValidationFailure (List (String × Value)) :=
  validateFields pre s.fields

/-- The startup failure kinds of the pipeline: a malformed transform
input from the preprocessor, or a schema validation failure from the
validator adapter. -/
inductive StartupFailure where
  | malformedTransformInput (e : MalformedTransformInput)
  | schemaValidationFailure (f : ValidationFailure)
deriving Repr

/-- Modelled from the spec: the Schema Validator Adapter, delegating
entirely to the supplied schema object and translating its failure into
the system failure type. -/
def validateAdapter (schema : JoiObjectSchema)
    (pre : List (String × Value)) :
    Except StartupFailure (List (String × Value)) :=
  match schema.validate pre with
  | .ok v => .ok v
  | .error f => .error (.schemaValidationFailure f)

/-- Modelled from the spec: the Environment Lookup Service, constructed
once with a Validated Environment and exposing get by key; no mutation
operation is exposed. -/
structure EnvironmentService where
  environment : List (String × Value)

/-- Modelled from the spec: EnvironmentService.get, the typed accessor
over the held Validated Environment. It is modelled as a state-passing
call so that the absence of mutation is a provable statement: the call
returns the looked-up value together with the service state after the
call. -/
def EnvironmentService.get (svc : EnvironmentService) (key : String) :
    Option Value × EnvironmentService :=
  (svc.environment.lookup key, svc)

/-- Modelled from the spec: n successive get calls for the same key,
threading the service state, returning the values observed. -/
def EnvironmentService.getTimes (svc : EnvironmentService) (key : String) :
    Nat → List (Option Value) × EnvironmentService
  | 0 => ([], svc)
  | n + 1 =>
    let (v, svc₁) := svc.get key
    let (vs, svc₂) := svc₁.getTimes key n
    (v :: vs, svc₂)

/-- Modelled from the spec: BaseEnvironment, the interface every Shape
Declaration class passed to the module must implement: a plain data
class whose decorated field names and options are discovered through
its identity in the Field Transform Registry. -/
structure BaseEnvironment where
  shapeId : ShapeId
deriving Repr, DecidableEq

/-- Modelled from the spec: the configuration accepted by
EnvironmentModule.forRoot: the Shape Declaration class and the Joi
validation schema. -/
structure ForRootConfig where
  environmentClass : BaseEnvironment
  validationSchema : JoiObjectSchema

/-- Modelled from the spec: EnvironmentModule.forRoot run at module
startup: preprocess the raw environment for the declared shape, validate
the result through the adapter, and construct the lookup service; any
failure is fatal and prevents initialization. -/
def forRoot (reg : Registry) (raw : List (String × String))
    (config : ForRootConfig) : Except StartupFailure EnvironmentService :=
  match preprocess reg config.environmentClass.shapeId raw with
  | .error e => .error (.malformedTransformInput e)
  | .ok pre =>
    match validateAdapter config.validationSchema pre with
    | .error f => .error f
    | .ok v => .ok ⟨v⟩

/-- Sample parsed value for an array-of-classes field. -/
def exampleUsersJson : Json :=
  .arr [.obj [("name", .str "x")], .obj [("name", .str "y")]]

/-- Sample registry with one toClass entry. -/
def exampleUsersReg : Registry := [⟨"Env", "EXTERNAL_USERS", ⟨true, ","⟩⟩]

/-- Sample raw environment holding a serialized array of objects. -/
def exampleUsersRaw : List (String × String) :=
  [("EXTERNAL_USERS", "[\x7b\"name\":\"x\"\x7d,\x7b\"name\":\"y\"\x7d]")]

/-- Preprocessed form of exampleUsersRaw. -/
def exampleUsersOut : List (String × Value) :=
  [("EXTERNAL_USERS", .json exampleUsersJson)]

/-- Sample registry with two separator-split entries. -/
def exampleSplitReg : Registry :=
  [⟨"Env", "ALLOWED_IPS", ⟨false, ","⟩⟩, ⟨"Env", "TAGS", ⟨false, ","⟩⟩]

/-- Sample raw environment with two delimited string fields. -/
def exampleSplitRaw : List (String × String) :=
  [("ALLOWED_IPS", "a,b,c"), ("TAGS", "a")]

/-- Preprocessed form of exampleSplitRaw. -/
def exampleSplitOut : List (String × Value) :=
  [("ALLOWED_IPS", .strList ["a", "b", "c"]), ("TAGS", .strList ["a"])]

/-- Sample registry with one toClass entry for a single-object field. -/
def exampleBadReg : Registry := [⟨"Env", "INTERNAL_USER", ⟨true, ","⟩⟩]

/-- Sample raw environment holding a malformed serialized value. -/
def exampleBadRaw : List (String × String) := [("INTERNAL_USER", "\x7boops")]

/-- Sample registry whose sole entry concerns a different shape. -/
def exampleOtherReg : Registry := [⟨"Other", "XS", ⟨false, ","⟩⟩]

/-- Sample registry whose registered field is absent from the raw
environment used with it. -/
def exampleFrameReg : Registry := [⟨"Env", "ALLOWED_IPS", ⟨false, ","⟩⟩]

/-- Sample Joi object schema with one defaulted pass-through field. -/
def exampleSchema : JoiObjectSchema :=
  ⟨[⟨"NODE_ENV", fun v => .ok v, some (.str "development")⟩]⟩

/-- Key-wise characterization of a successful preprocessing run: keys
absent from the raw mapping stay absent, and each present key carries
the transformField image of its raw value. -/
theorem preprocessList_lookup (es : List (String × TransformOptions)) :
    ∀ (raw : List (String × String)) (out : List (String × Value)),
      preprocessList es raw = .ok out →
      ∀ k : String,
        (raw.lookup k = none → out.lookup k = none) ∧
        (∀ v, raw.lookup k = some v →
          ∃ w, transformField es k v = .ok w ∧ out.lookup k = some w) := by
  intro raw
  induction raw with
  | nil =>
    intro out h k
    simp only [preprocessList] at h
    injection h with h
    subst h
    refine ⟨fun _ => rfl, fun v hv => ?_⟩
    simp [List.lookup] at hv
  | cons p t ih =>
    intro out h k
    obtain ⟨k₀, v₀⟩ := p
    simp only [preprocessList] at h
    cases hstep : transformField es k₀ v₀ with
    | error e => simp [hstep] at h
    | ok w =>
      cases hrest : preprocessList es t with
      | error e => simp [hstep, hrest] at h
      | ok outt =>
        simp only [hstep, hrest] at h
        injection h with h
        subst h
        have iht := ih outt hrest k
        by_cases hk : k = k₀
        · subst hk
          refine ⟨fun hnone => ?_, fun v hv => ?_⟩
          · simp [List.lookup] at hnone
          · simp only [List.lookup, beq_self_eq_true] at hv ⊢
            injection hv with hv
            subst hv
            exact ⟨w, hstep, rfl⟩
        · have hbeq : (k == k₀) = false := beq_eq_false_iff_ne.mpr hk
          refine ⟨fun hnone => ?_, fun v hv => ?_⟩
          · simp only [List.lookup, hbeq] at hnone ⊢
            exact iht.1 hnone
          · simp only [List.lookup, hbeq] at hv ⊢
            exact iht.2 v hv

/-- A raw binding whose transform fails makes the whole preprocessing
run fail. -/
theorem preprocessList_error (es : List (String × TransformOptions)) :
    ∀ (raw : List (String × String)) (k v : String)
      (e : MalformedTransformInput),
      raw.lookup k = some v → transformField es k v = .error e →
      ∃ e₂, preprocessList es raw = .error e₂ := by
  intro raw
  induction raw with
  | nil => intro k v e hv _; simp [List.lookup] at hv
  | cons p t ih =>
    intro k v e hv hf
    obtain ⟨k₀, v₀⟩ := p
    by_cases hk : k = k₀
    · subst hk
      simp only [List.lookup, beq_self_eq_true] at hv
      injection hv with hv
      subst hv
      exact ⟨e, by simp [preprocessList, hf]⟩
    · have hbeq : (k == k₀) = false := beq_eq_false_iff_ne.mpr hk
      simp only [List.lookup, hbeq] at hv
      obtain ⟨e₂, he₂⟩ := ih k v e hv hf
      cases hstep : transformField es k₀ v₀ with
      | error e₀ => exact ⟨e₀, by simp [preprocessList, hstep]⟩
      | ok w => exact ⟨e₂, by simp [preprocessList, hstep, he₂]⟩

/-- A successful field validation is keyed by the field's declared
name. -/
theorem validateField_name (pre : List (String × Value)) (f : FieldSchema)
    (kv : String × Value) (h : validateField pre f = .ok kv) :
    kv.1 = f.name := by
  unfold validateField at h
  split at h
  · split at h
    · injection h with h; subst h; rfl
    · cases h
  · split at h
    · injection h with h; subst h; rfl
    · cases h

/-- A successful validation run yields a binding for every declared
field. -/
theorem validateFields_ok_lookup (pre : List (String × Value)) :
    ∀ (fs : List FieldSchema) (out : List (String × Value)),
      validateFields pre fs = .ok out →
      ∀ f ∈ fs, ∃ v, out.lookup f.name = some v := by
  intro fs
  induction fs with
  | nil => intro out h f hf; cases hf
  | cons f₀ fs ih =>
    intro out h f hf
    simp only [validateFields] at h
    cases hstep : validateField pre f₀ with
    | error e => simp [hstep] at h
    | ok kv =>
      cases hrest : validateFields pre fs with
      | error e => simp [hstep, hrest] at h
      | ok outt =>
        simp only [hstep, hrest] at h
        injection h with h
        subst h
        obtain ⟨k₁, w₁⟩ := kv
        have hname : k₁ = f₀.name := validateField_name pre f₀ (k₁, w₁) hstep
        subst hname
        rcases List.mem_cons.mp hf with hf₀ | hfs
        · subst hf₀
          exact ⟨w₁, by simp [List.lookup]⟩
        · obtain ⟨v, hv⟩ := ih outt hrest f hfs
          by_cases hk : f.name = f₀.name
          · exact ⟨w₁, by simp [List.lookup, hk]⟩
          · have hbeq : (f.name == f₀.name) = false := beq_eq_false_iff_ne.mpr hk
            exact ⟨v, by simp [List.lookup, hbeq, hv]⟩

/-- Repeated get calls neither mutate the service nor drift from the
single held value. -/
theorem getTimes_stable (svc : EnvironmentService) (key : String) :
    ∀ n : Nat, (svc.getTimes key n).2 = svc ∧
      ∀ v ∈ (svc.getTimes key n).1, v = (svc.get key).1 := by
  intro n
  induction n with
  | zero =>
    refine ⟨rfl, fun v hv => ?_⟩
    simp [EnvironmentService.getTimes] at hv
  | succ n ih =>
    refine ⟨?_, fun v hv => ?_⟩
    · simp only [EnvironmentService.getTimes, EnvironmentService.get]
      exact ih.1
    · simp only [EnvironmentService.getTimes, EnvironmentService.get] at hv
      rcases List.mem_cons.mp hv with h | h
      · subst h; rfl
      · exact ih.2 v h

/-- C1: for every field registered with a Transform Annotation having
toClass whose raw string value is present, preprocess applies exactly
one level of JSON parsing: the stored value is the parse result itself;
its candidate instances are the array elements when the parse is an
array and the whole value otherwise; and the result is unchanged under
any registry whose entries for the target shape agree, so no inner
shape's own registry entries are applied by the preprocessor. -/
theorem toClass_single_level_parse (reg : Registry) (shape : ShapeId)
    (raw : List (String × String)) (out : List (String × Value))
    (k v : String) (opts : TransformOptions) (j : Json)
    (hout : preprocess reg shape raw = .ok out)
    (hreg : (transformsFor reg shape).lookup k = some opts)
    (htc : opts.toClass = true)
    (hv : raw.lookup k = some v)
    (hj : Json.parse v = some j) :
    out.lookup k = some (.json j) ∧
    candidates j = (match j with | .arr xs => xs | _ => [j]) ∧
    ∀ reg₂ : Registry, transformsFor reg₂ shape = transformsFor reg shape →
      preprocess reg₂ shape raw = preprocess reg shape raw := by
  have hfield : transformField (transformsFor reg shape) k v = .ok (.json j) := by
    simp [transformField, hreg, htc, hj]
  obtain ⟨w, hw, hl⟩ := (preprocessList_lookup _ raw out hout k).2 v hv
  rw [hfield] at hw
  injection hw with hw
  subst hw
  refine ⟨hl, ?_, ?_⟩
  · cases j <;> rfl
  · intro reg₂ h₂
    unfold preprocess
    rw [h₂]

/-- C2: for every field registered without toClass whose raw string
value is present, preprocess splits the string on the configured
separator, yielding the ordered array of substrings. -/
theorem split_on_separator (reg : Registry) (shape : ShapeId)
    (raw : List (String × String)) (out : List (String × Value))
    (k v : String) (opts : TransformOptions)
    (hout : preprocess reg shape raw = .ok out)
    (hreg : (transformsFor reg shape).lookup k = some opts)
    (htc : opts.toClass = false)
    (hv : raw.lookup k = some v) :
    out.lookup k = some (.strList (splitString v opts.separator)) := by
  have hfield : transformField (transformsFor reg shape) k v
      = .ok (.strList (splitString v opts.separator)) := by
    simp [transformField, hreg, htc]
  obtain ⟨w, hw, hl⟩ := (preprocessList_lookup _ raw out hout k).2 v hv
  rw [hfield] at hw
  injection hw with hw
  subst hw
  exact hl

/-- C3: the validate step is all-or-nothing: for every registry, raw
environment and module configuration, either startup succeeds and the
Validated Environment binds every field declared in the schema, or a
startup failure is raised for the whole shape; no partial Validated
Environment is produced. -/
theorem validate_all_or_nothing (reg : Registry)
    (raw : List (String × String)) (config : ForRootConfig) :
    (∃ svc : EnvironmentService, forRoot reg raw config = .ok svc ∧
      ∀ f ∈ config.validationSchema.fields,
        ∃ v, svc.environment.lookup f.name = some v) ∨
    (∃ e, forRoot reg raw config = .error e) := by
  cases hpre : preprocess reg config.environmentClass.shapeId raw with
  | error e =>
    exact .inr ⟨.malformedTransformInput e, by unfold forRoot; rw [hpre]⟩
  | ok pre =>
    have hfr : forRoot reg raw config
        = (match validateAdapter config.validationSchema pre with
            | .error f => .error f
            | .ok v => .ok ⟨v⟩) := by
      unfold forRoot
      rw [hpre]
    cases hval : config.validationSchema.validate pre with
    | error f =>
      refine .inr ⟨.schemaValidationFailure f, ?_⟩
      rw [hfr]
      unfold validateAdapter
      rw [hval]
    | ok out =>
      refine .inl ⟨⟨out⟩, ?_, fun f hf => ?_⟩
      · rw [hfr]
        unfold validateAdapter
        rw [hval]
      · exact validateFields_ok_lookup pre config.validationSchema.fields out hval f hf

/-- C4: a present toClass field whose raw value is not well-formed JSON
makes preprocessing propagate a parse error, and module startup for that
shape fails with a malformed-transform-input configuration failure, so
initialization never completes. -/
theorem malformed_json_fatal (reg : Registry) (shape : ShapeId)
    (raw : List (String × String)) (k v : String) (opts : TransformOptions)
    (hreg : (transformsFor reg shape).lookup k = some opts)
    (htc : opts.toClass = true)
    (hv : raw.lookup k = some v)
    (hbad : Json.parse v = none) :
    (∃ e, preprocess reg shape raw = .error e) ∧
    ∀ config : ForRootConfig, config.environmentClass.shapeId = shape →
      ∃ e, forRoot reg raw config = .error (.malformedTransformInput e) := by
  have hfield : transformField (transformsFor reg shape) k v = .error ⟨k, v⟩ := by
    simp [transformField, hreg, htc, hbad]
  obtain ⟨e₂, he₂⟩ := preprocessList_error _ raw k v ⟨k, v⟩ hv hfield
  refine ⟨⟨e₂, he₂⟩, fun config hc => ⟨e₂, ?_⟩⟩
  unfold forRoot
  rw [hc]
  have hp : preprocess reg shape raw = .error e₂ := he₂
  rw [hp]

/-- C5: for every shape with no Transform Annotations registered,
preprocess is the identity on the raw mapping, each raw string carried
over unchanged. -/
theorem no_transforms_identity (reg : Registry) (shape : ShapeId)
    (raw : List (String × String))
    (h : transformsFor reg shape = []) :
    preprocess reg shape raw
      = .ok (raw.map (fun p => (p.1, Value.str p.2))) := by
  unfold preprocess
  rw [h]
  induction raw with
  | nil => rfl
  | cons p t ih =>
    obtain ⟨k, v⟩ := p
    simp only [preprocessList]
    have hfield : transformField ([] : List (String × TransformOptions)) k v
        = .ok (.str v) := rfl
    rw [hfield, ih]
    rfl

/-- C6: preprocess touches only registered fields: a present key with no
Transform Annotation for the target shape keeps its original string
value, and a key absent from the raw mapping stays absent from the
output. -/
theorem untouched_frame (reg : Registry) (shape : ShapeId)
    (raw : List (String × String)) (out : List (String × Value))
    (hout : preprocess reg shape raw = .ok out) :
    (∀ k v, (transformsFor reg shape).lookup k = none →
      raw.lookup k = some v → out.lookup k = some (.str v)) ∧
    (∀ k, raw.lookup k = none → out.lookup k = none) := by
  refine ⟨fun k v hnone hv => ?_, fun k hk => (preprocessList_lookup _ raw out hout k).1 hk⟩
  have hfield : transformField (transformsFor reg shape) k v = .ok (.str v) := by
    simp [transformField, hnone]
  obtain ⟨w, hw, hl⟩ := (preprocessList_lookup _ raw out hout k).2 v hv
  rw [hfield] at hw
  injection hw with hw
  subst hw
  exact hl

/-- A startup run whose preprocessing fails reports the parse error as
a fatal malformed-transform-input failure. -/
theorem forRoot_error_eq (reg : Registry) (raw : List (String × String))
    (config : ForRootConfig) (e : MalformedTransformInput)
    (h : preprocess reg config.environmentClass.shapeId raw = .error e) :
    forRoot reg raw config = .error (.malformedTransformInput e) := by
  unfold forRoot
  rw [h]

/-- A startup run whose preprocessing succeeds continues with the
validator adapter on the preprocessed mapping. -/
theorem forRoot_ok_eq (reg : Registry) (raw : List (String × String))
    (config : ForRootConfig) (pre : List (String × Value))
    (h : preprocess reg config.environmentClass.shapeId raw = .ok pre) :
    forRoot reg raw config
      = (match validateAdapter config.validationSchema pre with
          | .error f => .error f
          | .ok v => .ok ⟨v⟩) := by
  unfold forRoot
  rw [h]

/-- C7: a Validated Environment produced by forRoot is stable: any
number of repeated get calls leaves the service unchanged and every
observed value equals the single held lookup result, with no mutation
path exposed. -/
theorem get_repeat_stable (reg : Registry) (raw : List (String × String))
    (config : ForRootConfig) (svc : EnvironmentService)
    (_h : forRoot reg raw config = .ok svc) (key : String) (n : Nat) :
    (svc.getTimes key n).2 = svc ∧
    ∀ v ∈ (svc.getTimes key n).1, v = (svc.get key).1 :=
  getTimes_stable svc key n

/-- C8: a field annotated without toClass whose raw value is the empty
string preprocesses to a single-element array holding the empty string:
it neither fails nor yields an empty array. -/
theorem empty_string_single_element :
    preprocess [⟨"Env", "ALLOWED_IPS", ⟨false, ","⟩⟩] "Env"
        [("ALLOWED_IPS", "")]
      = .ok [("ALLOWED_IPS", .strList [""])] := rfl

/-- C9: Joi is the unique supported validation source: the module
accepts the schema through the Joi object-schema interface, and the
behaviour of the Schema Validator Adapter and of startup is fully
determined by the schema's synchronous validate operation. -/
theorem joi_schema_sole_interface (s₁ s₂ : JoiObjectSchema)
    (h : ∀ pre, s₁.validate pre = s₂.validate pre) :
    (∀ pre, validateAdapter s₁ pre = validateAdapter s₂ pre) ∧
    ∀ (reg : Registry) (raw : List (String × String))
      (envC : BaseEnvironment),
      forRoot reg raw ⟨envC, s₁⟩ = forRoot reg raw ⟨envC, s₂⟩ := by
  have hA : ∀ pre, validateAdapter s₁ pre = validateAdapter s₂ pre := by
    intro pre
    unfold validateAdapter
    rw [h pre]
  refine ⟨hA, fun reg raw envC => ?_⟩
  cases hpre : preprocess reg envC.shapeId raw with
  | error e =>
    rw [forRoot_error_eq reg raw ⟨envC, s₁⟩ e hpre,
        forRoot_error_eq reg raw ⟨envC, s₂⟩ e hpre]
  | ok pre =>
    rw [forRoot_ok_eq reg raw ⟨envC, s₁⟩ pre hpre,
        forRoot_ok_eq reg raw ⟨envC, s₂⟩ pre hpre, hA pre]

/-- C10: the Shape Declaration class enters the pipeline only through
the BaseEnvironment interface it must implement: startup behaviour is
fully determined by the registry entries reachable through the class's
shape identity together with the schema's validate operation. -/
theorem base_environment_sole_precondition (reg : Registry)
    (raw : List (String × String)) (c₁ c₂ : ForRootConfig)
    (henv : transformsFor reg c₁.environmentClass.shapeId
      = transformsFor reg c₂.environmentClass.shapeId)
    (hs : ∀ pre, c₁.validationSchema.validate pre
      = c₂.validationSchema.validate pre) :
    forRoot reg raw c₁ = forRoot reg raw c₂ := by
  have hpp : preprocess reg c₁.environmentClass.shapeId raw
      = preprocess reg c₂.environmentClass.shapeId raw := by
    unfold preprocess
    rw [henv]
  cases hpre : preprocess reg c₂.environmentClass.shapeId raw with
  | error e =>
    rw [forRoot_error_eq reg raw c₁ e (hpp.trans hpre),
        forRoot_error_eq reg raw c₂ e hpre]
  | ok pre =>
    rw [forRoot_ok_eq reg raw c₁ pre (hpp.trans hpre),
        forRoot_ok_eq reg raw c₂ pre hpre]
    unfold validateAdapter
    rw [hs pre]

/-- Witness for C1 at a concrete registry, raw environment and
serialized array of two objects. -/
theorem toClass_single_level_parse_witness :
    preprocess exampleUsersReg "Env" exampleUsersRaw = .ok exampleUsersOut ∧
    (transformsFor exampleUsersReg "Env").lookup "EXTERNAL_USERS"
        = some ⟨true, ","⟩ ∧
    exampleUsersRaw.lookup "EXTERNAL_USERS"
        = some "[\x7b\"name\":\"x\"\x7d,\x7b\"name\":\"y\"\x7d]" ∧
    Json.parse "[\x7b\"name\":\"x\"\x7d,\x7b\"name\":\"y\"\x7d]"
        = some exampleUsersJson ∧
    (exampleUsersOut.lookup "EXTERNAL_USERS" = some (.json exampleUsersJson) ∧
      candidates exampleUsersJson
        = (match exampleUsersJson with
            | .arr xs => xs
            | _ => [exampleUsersJson]) ∧
      ∀ reg₂ : Registry,
        transformsFor reg₂ "Env" = transformsFor exampleUsersReg "Env" →
        preprocess reg₂ "Env" exampleUsersRaw
          = preprocess exampleUsersReg "Env" exampleUsersRaw) :=
  ⟨rfl, rfl, rfl, rfl,
   toClass_single_level_parse exampleUsersReg "Env" exampleUsersRaw
     exampleUsersOut "EXTERNAL_USERS"
     "[\x7b\"name\":\"x\"\x7d,\x7b\"name\":\"y\"\x7d]" ⟨true, ","⟩
     exampleUsersJson rfl rfl rfl rfl rfl⟩

/-- Witness for C2 at the inputs named by the specification. -/
theorem split_on_separator_witness :
    preprocess exampleSplitReg "Env" exampleSplitRaw = .ok exampleSplitOut ∧
    exampleSplitOut.lookup "ALLOWED_IPS" = some (.strList ["a", "b", "c"]) ∧
    exampleSplitOut.lookup "TAGS" = some (.strList ["a"]) :=
  ⟨rfl,
   split_on_separator exampleSplitReg "Env" exampleSplitRaw exampleSplitOut
     "ALLOWED_IPS" "a,b,c" ⟨false, ","⟩ rfl rfl rfl rfl,
   split_on_separator exampleSplitReg "Env" exampleSplitRaw exampleSplitOut
     "TAGS" "a" ⟨false, ","⟩ rfl rfl rfl rfl⟩

/-- Witness for C4 at a concrete malformed serialized value. -/
theorem malformed_json_fatal_witness :
    (transformsFor exampleBadReg "Env").lookup "INTERNAL_USER"
        = some ⟨true, ","⟩ ∧
    exampleBadRaw.lookup "INTERNAL_USER" = some "\x7boops" ∧
    Json.parse "\x7boops" = none ∧
    ((∃ e, preprocess exampleBadReg "Env" exampleBadRaw = .error e) ∧
      ∀ config : ForRootConfig, config.environmentClass.shapeId = "Env" →
        ∃ e, forRoot exampleBadReg exampleBadRaw config
          = .error (.malformedTransformInput e)) :=
  ⟨rfl, rfl, rfl,
   malformed_json_fatal exampleBadReg "Env" exampleBadRaw "INTERNAL_USER"
     "\x7boops" ⟨true, ","⟩ rfl rfl rfl rfl⟩

/-- Witness for C5 at a registry whose sole entry concerns another
shape. -/
theorem no_transforms_identity_witness :
    transformsFor exampleOtherReg "Env" = [] ∧
    preprocess exampleOtherReg "Env"
        [("NODE_ENV", "production"), ("PORT", "8080")]
      = .ok [("NODE_ENV", Value.str "production"),
             ("PORT", Value.str "8080")] :=
  ⟨rfl,
   no_transforms_identity exampleOtherReg "Env"
     [("NODE_ENV", "production"), ("PORT", "8080")] rfl⟩

/-- Witness for C6 at a raw environment whose sole key is unregistered
while the registered key is absent. -/
theorem untouched_frame_witness :
    preprocess exampleFrameReg "Env" [("FOO", "bar")]
      = .ok [("FOO", Value.str "bar")] ∧
    ((∀ k v, (transformsFor exampleFrameReg "Env").lookup k = none →
        (([("FOO", "bar")] : List (String × String)).lookup k = some v) →
        (([("FOO", Value.str "bar")] : List (String × Value)).lookup k
          = some (.str v))) ∧
      ∀ k, (([("FOO", "bar")] : List (String × String)).lookup k = none) →
        (([("FOO", Value.str "bar")] : List (String × Value)).lookup k
          = none)) :=
  ⟨rfl,
   untouched_frame exampleFrameReg "Env" [("FOO", "bar")]
     [("FOO", Value.str "bar")] rfl⟩

/-- Witness for C7 at a concrete successful startup and three repeated
get calls. -/
theorem get_repeat_stable_witness :
    forRoot [] [("NODE_ENV", "production")] ⟨⟨"Env"⟩, exampleSchema⟩
      = .ok ⟨[("NODE_ENV", Value.str "production")]⟩ ∧
    (((⟨[("NODE_ENV", Value.str "production")]⟩ :
        EnvironmentService).getTimes "NODE_ENV" 3).2
      = ⟨[("NODE_ENV", Value.str "production")]⟩ ∧
      ∀ v ∈ ((⟨[("NODE_ENV", Value.str "production")]⟩ :
          EnvironmentService).getTimes "NODE_ENV" 3).1,
        v = ((⟨[("NODE_ENV", Value.str "production")]⟩ :
          EnvironmentService).get "NODE_ENV").1) :=
  ⟨rfl,
   get_repeat_stable [] [("NODE_ENV", "production")] ⟨⟨"Env"⟩, exampleSchema⟩
     ⟨[("NODE_ENV", Value.str "production")]⟩ rfl "NODE_ENV" 3⟩

/-- Witness for C9 at a concrete schema. -/
theorem joi_schema_sole_interface_witness :
    (∀ pre, exampleSchema.validate pre = exampleSchema.validate pre) ∧
    ((∀ pre, validateAdapter exampleSchema pre
        = validateAdapter exampleSchema pre) ∧
      ∀ (reg : Registry) (raw : List (String × String))
        (envC : BaseEnvironment),
        forRoot reg raw ⟨envC, exampleSchema⟩
          = forRoot reg raw ⟨envC, exampleSchema⟩) :=
  ⟨fun _ => rfl,
   joi_schema_sole_interface exampleSchema exampleSchema (fun _ => rfl)⟩

/-- Witness for C10 at two configurations whose classes expose the same
interface view. -/
theorem base_environment_sole_precondition_witness :
    transformsFor [] "Env" = transformsFor [] "Env2" ∧
    (∀ pre, exampleSchema.validate pre = exampleSchema.validate pre) ∧
    forRoot [] [("A", "b")] ⟨⟨"Env"⟩, exampleSchema⟩
      = forRoot [] [("A", "b")] ⟨⟨"Env2"⟩, exampleSchema⟩ :=
  ⟨rfl, fun _ => rfl,
   base_environment_sole_precondition [] [("A", "b")]
     ⟨⟨"Env"⟩, exampleSchema⟩ ⟨⟨"Env2"⟩, exampleSchema⟩ rfl (fun _ => rfl)⟩
